import Mathlib

/-!
Verification of the STCP visitor subsystem of the frp repository.

Bytes of the Go byte streams are modelled as natural numbers (Go `byte`
values, 0..255 in practice).  A network connection delivering bytes is
modelled as the list of bytes it will deliver; a read consumes a prefix of
that list.  Fallible Go functions returning `(value, error)` pairs are
modelled with `Option`.
-/

namespace Frp

abbrev Byte := Nat

/-! ## Target-line parser (pkg/util/net, function ParseTargetHead) -/

/-- Loop of ParseTargetHead: read one byte at a time from the connection,
appending it to the accumulated buffer, until the buffer ends with a
semicolon (byte 59).  Returns the accumulated buffer (semicolon included)
together with the unconsumed remainder of the input; returns none when the
input is exhausted first (the read error is propagated). -/
def readUntilSemi : List Byte → List Byte → Option (List Byte × List Byte)
  | [], _ => none
  | b :: rest, acc =>
    if b = 59 then some (acc ++ [b], rest) else readUntilSemi rest (acc ++ [b])

/-- Byte string "TARGET " (registered demux pattern and required head). -/
def targetHeadBytes : List Byte := [84, 65, 82, 71, 69, 84, 32]

/-- ParseTargetHead: read bytes until the buffer ends with a semicolon; the
buffer must start with "TARGET "; strip that head and the trailing
semicolon.  The first component is the parsed target (none on error), the
second the bytes left unconsumed on the connection. -/
def ParseTargetHead (input : List Byte) : Option (List Byte) × List Byte :=
  match readUntilSemi input [] with
  | none => (none, [])
  | some (buf, rest) =>
    if targetHeadBytes.isPrefixOf buf then
      (some ((buf.drop 7).dropLast), rest)
    else
      (none, rest)

/-! ## Peekable connection (cmd/frp/root.go, type bufConn) -/

/-- State of a bufConn: the optional buffered reader (the list of bytes
still buffered; none once the reference is dropped) and the bytes the
underlying connection will deliver. -/
structure BufConn where
  reader : Option (List Byte)
  conn : List Byte
deriving DecidableEq

/-- Read of the underlying net.Conn: delivers up to k of its remaining bytes. -/
def connRead (conn : List Byte) (k : Nat) : List Byte × List Byte :=
  (conn.take k, conn.drop k)

/-- bufConn.Read: with no reader, read the connection directly; with an
empty buffer, drop the reader and read the connection; otherwise cap the
destination at the buffered length and serve from the buffer only. -/
def bufConnRead (c : BufConn) (k : Nat) : List Byte × BufConn :=
  match c.reader with
  | none =>
    let r := connRead c.conn k
    (r.1, ⟨none, r.2⟩)
  | some buffered =>
    let n := buffered.length
    if n = 0 then
      let r := connRead c.conn k
      (r.1, ⟨none, r.2⟩)
    else
      let m := min n k
      (buffered.take m, ⟨some (buffered.drop m), c.conn⟩)

/-- Bytes a bufConn has yet to deliver: buffered bytes, then the connection. -/
def BufConn.remaining (c : BufConn) : List Byte :=
  (match c.reader with | none => [] | some b => b) ++ c.conn

/-- A sequence of Read calls with the given destination sizes; returns the
concatenation of all delivered bytes and the final state. -/
def bufConnReadAll (c : BufConn) : List Nat → List Byte × BufConn
  | [] => ([], c)
  | k :: ks =>
    let r := bufConnRead c k
    let r' := bufConnReadAll r.2 ks
    (r.1 ++ r'.1, r'.2)

/-! ## Prefix trie and protocol demux (var muxer in client/visitor/stcp.go)

The trie implementation lives in pkg/trie, which is not among the provided
source files; it is modelled from the spec, section 4.1.  The registered
byte patterns come from the generator table in pkg/cmux/pattern
(pattern_gen.go, included with the sources): socks4 is the expansion of
the regex caret x04 (x01 or x02), socks5 of caret x05 (x01|x02|x03), http
of the nine method names each followed by a space, http2 the literal
"PRI * HTTP/2.0", and the visitor registers the literal "TARGET " itself. -/

/-- Modelled from the spec: a prefix-trie node (pkg/trie is not under the
provided sources).  Each node carries an optional terminal handler tag and
byte-indexed children. -/
inductive Trie where
  | node : Option String → List (Byte × Trie) → Trie

/-- Terminal tag of a node. -/
def Trie.tagOf : Trie → Option String
  | .node t _ => t

/-- Children of a node. -/
def Trie.children : Trie → List (Byte × Trie)
  | .node _ ch => ch

/-- Child lookup by byte. -/
def lookupChild : List (Byte × Trie) → Byte → Option Trie
  | [], _ => none
  | (b, t) :: rest, k => if b = k then some t else lookupChild rest k

/-- Child update by byte (insert when absent). -/
def updateChild : List (Byte × Trie) → Byte → Trie → List (Byte × Trie)
  | [], k, t => [(k, t)]
  | (b, u) :: rest, k, t =>
    if b = k then (b, t) :: rest else (b, u) :: updateChild rest k t

/-- Modelled from the spec: Put registers a terminal tag at the node reached
by the prefix; the same prefix inserted twice overwrites the tag. -/
def Trie.put : Trie → List Byte → String → Trie
  | .node _ ch, [], tag => .node (some tag) ch
  | .node t ch, b :: bs, tag =>
    let child :=
      match lookupChild ch b with
      | some u => u
      | none => .node none []
    .node t (updateChild ch b (child.put bs tag))

/-- Result of MatchWithReader: a hit carries the tag, the consumed bytes and
the unread remainder; a miss or a reader error carries the consumed bytes. -/
inductive MatchResult where
  | hit : String → List Byte → List Byte → MatchResult
  | miss : List Byte → MatchResult
  | readErr : List Byte → MatchResult
deriving DecidableEq

/-- Modelled from the spec: MatchWithReader reads bytes one at a time,
descending the trie, until a terminal node is reached (return its tag plus
every byte read so far, never looking further), a child is absent (miss) or
the reader errors (propagate). -/
def Trie.matchWithReader : Trie → List Byte → List Byte → MatchResult
  | .node (some tag) _, consumed, input => .hit tag consumed input
  | .node none ch, consumed, input =>
    match input with
    | [] => .readErr consumed
    | b :: rest =>
      match lookupChild ch b with
      | none => .miss (consumed ++ [b])
      | some child => child.matchWithReader (consumed ++ [b]) rest

/-- HandlePrefix of client/visitor/stcp.go: register every pattern of the
list under the given handler tag. -/
def handlePats (t : Trie) (tag : String) (pats : List (List Byte)) : Trie :=
  pats.foldl (fun acc p => acc.put p tag) t

/-- Byte patterns of pattern.Pattern for tag http: the nine request methods,
each with the trailing space. -/
def httpPats : List (List Byte) :=
  [ [71, 69, 84, 32],                      -- GET
    [72, 69, 65, 68, 32],                  -- HEAD
    [80, 79, 83, 84, 32],                  -- POST
    [80, 85, 84, 32],                      -- PUT
    [80, 65, 84, 67, 72, 32],              -- PATCH
    [68, 69, 76, 69, 84, 69, 32],          -- DELETE
    [67, 79, 78, 78, 69, 67, 84, 32],      -- CONNECT
    [79, 80, 84, 73, 79, 78, 83, 32],      -- OPTIONS
    [84, 82, 65, 67, 69, 32] ]             -- TRACE

/-- Byte pattern of pattern.Pattern for tag http2: "PRI * HTTP/2.0". -/
def http2Pats : List (List Byte) :=
  [ [80, 82, 73, 32, 42, 32, 72, 84, 84, 80, 47, 50, 46, 48] ]

/-- Byte patterns of pattern.Pattern for tag socks5. -/
def socks5Pats : List (List Byte) := [[5, 1], [5, 2], [5, 3]]

/-- Byte patterns of pattern.Pattern for tag socks4. -/
def socks4Pats : List (List Byte) := [[4, 1], [4, 2]]

/-- Trie of the first muxer in stcp.go: http (with http2), socks5 and
target patterns are registered; no socks4 patterns. -/
def muxerTrieV1 : Trie :=
  handlePats
    (handlePats
      (handlePats (.node none []) "http" (httpPats ++ http2Pats))
      "socks5" socks5Pats)
    "target" [targetHeadBytes]

/-- Trie of the second muxer in stcp.go: http (with http2), socks5, socks4
and target patterns are registered. -/
def muxerTrieV2 : Trie :=
  handlePats
    (handlePats
      (handlePats
        (handlePats (.node none []) "http" (httpPats ++ http2Pats))
        "socks5" socks5Pats)
      "socks4" socks4Pats)
    "target" [targetHeadBytes]

/-- The muxer closure: run the trie on the connection; on a hit, return the
tag and the replayed connection (cmux.UnreadConn re-serves the consumed
bytes in front of the rest); on a miss or read error the session errors out
and is dropped. -/
def muxerRun (t : Trie) (input : List Byte) : Option (String × List Byte) :=
  match t.matchWithReader [] input with
  | .hit tag consumed rest => some (tag, consumed ++ rest)
  | .miss _ => none
  | .readErr _ => none

/-- First muxer (registered without socks4). -/
def muxerV1 (input : List Byte) : Option (String × List Byte) :=
  muxerRun muxerTrieV1 input

/-- Second muxer (registered with socks4). -/
def muxerV2 (input : List Byte) : Option (String × List Byte) :=
  muxerRun muxerTrieV2 input

/-! ## Tunnel dialer (STCPVisitor.DialContext in client/visitor/stcp.go)

The file stcp.go holds two definitions of the visitor; both define
DialContext over the same helpers.  ConnectServer, WriteMsg and the message
codec internals live outside the provided sources, so their outcomes are
oracle fields of the environment; every control-flow decision below mirrors
the Go function bodies. -/

/-- Events DialContext performs on the control stream visitorConn; a
deadline of none models the zero time.Time (deadline cleared). -/
inductive ConnEvent where
  | setReadDeadline : Option Nat → ConnEvent
  | writeMsg : Bool → ConnEvent
  | readMsg : Bool → ConnEvent
  | close : ConnEvent
deriving DecidableEq

/-- Outcomes of the external interactions of one DialContext call: whether
ConnectServer succeeds, whether WriteMsg succeeds, the response read (none
models a ReadMsgIntoTimeout failure, some e a NewVisitorConnResp whose
Error field is e), the two transport options of the visitor configuration
and whether building the encryption stream succeeds. -/
structure DialEnv where
  connectOk : Bool
  writeOk : Bool
  readResult : Option String
  useEncryption : Bool
  encryptOk : Bool
  useCompression : Bool
deriving DecidableEq

/-- Errors DialContext can return. -/
inductive GoErr where
  | connectErr : GoErr
  | writeErr : GoErr
  | readErr : GoErr
  | encryptErr : GoErr
  | remoteErr : String → GoErr
deriving DecidableEq

/-- Error string; the remote failure is built with fmt.Errorf
whose format renders as "error: " followed by the response error. -/
def GoErr.message : GoErr → String
  | .remoteErr s => "error: " ++ s
  | .connectErr => "connect server error"
  | .writeErr => "write msg error"
  | .readErr => "read msg error"
  | .encryptErr => "create encryption stream error"

/-- State of the returned readWriteCloserConn wrapper: whether a recycleFn
was installed (compression in use), how many times the recycleFn has run
and how many times Original.Close has run. -/
structure RWCConn where
  hasRecycle : Bool
  recycleCount : Nat
  originalCloseCount : Nat
deriving DecidableEq

/-- readWriteCloserConn.Close: when a recycleFn is present it is invoked,
then Original.Close runs; nothing clears the recycleFn, so every further
Close invokes it again. -/
def RWCConn.close (c : RWCConn) : RWCConn :=
  { hasRecycle := c.hasRecycle
    recycleCount := if c.hasRecycle then c.recycleCount + 1 else c.recycleCount
    originalCloseCount := c.originalCloseCount + 1 }

/-- n successive calls to Close. -/
def RWCConn.closeN : Nat → RWCConn → RWCConn
  | 0, c => c
  | n + 1, c => RWCConn.closeN n c.close

/-- Result of a DialContext call: the returned conn (none models nil), the
returned error (none models nil) and the events performed on visitorConn. -/
structure DialOutcome where
  conn : Option RWCConn
  err : Option GoErr
  events : List ConnEvent
deriving DecidableEq

/-- ReadMsgIntoTimeout of pkg/msg: set the read deadline to now plus the
timeout, read the message, and only on success reset the read deadline to
the zero value; returns success together with the events performed. -/
def readMsgIntoTimeout (now timeout : Nat) (readOk : Bool) : Bool × List ConnEvent :=
  if readOk then
    (true, [ConnEvent.setReadDeadline (some (now + timeout)), ConnEvent.readMsg true,
            ConnEvent.setReadDeadline none])
  else
    (false, [ConnEvent.setReadDeadline (some (now + timeout)), ConnEvent.readMsg false])

/-- DialContext, second definition in stcp.go: connect, write the
NewVisitorConn message, read the NewVisitorConnResp with a ten second
timeout, fail with the typed error on a non-empty response Error, then
layer optional encryption and compression and wrap the stream together
with the original conn and the recycle hook.  No branch closes
visitorConn. -/
def dialContextV2 (env : DialEnv) (now : Nat) : DialOutcome :=
  if env.connectOk = false then
    { conn := none, err := some .connectErr, events := [] }
  else if env.writeOk = false then
    { conn := none, err := some .writeErr, events := [.writeMsg false] }
  else
    match env.readResult with
    | none =>
      { conn := none, err := some .readErr
        events := ConnEvent.writeMsg true :: (readMsgIntoTimeout now 10 false).2 }
    | some e =>
      let evs := ConnEvent.writeMsg true :: (readMsgIntoTimeout now 10 true).2
      if e ≠ "" then
        { conn := none, err := some (.remoteErr e), events := evs }
      else if env.useEncryption && !env.encryptOk then
        { conn := none, err := some .encryptErr, events := evs }
      else
        { conn := some { hasRecycle := env.useCompression
                         recycleCount := 0, originalCloseCount := 0 }
          err := none, events := evs }

/-- DialContext, first definition in stcp.go: identical to the second
except in the non-empty-Error branch, which executes return nil, err while
err still holds the nil error of the earlier successful call. -/
def dialContextV1 (env : DialEnv) (now : Nat) : DialOutcome :=
  if env.connectOk = false then
    { conn := none, err := some .connectErr, events := [] }
  else if env.writeOk = false then
    { conn := none, err := some .writeErr, events := [.writeMsg false] }
  else
    match env.readResult with
    | none =>
      { conn := none, err := some .readErr
        events := ConnEvent.writeMsg true :: (readMsgIntoTimeout now 10 false).2 }
    | some e =>
      let evs := ConnEvent.writeMsg true :: (readMsgIntoTimeout now 10 true).2
      if e ≠ "" then
        { conn := none, err := none, events := evs }
      else if env.useEncryption && !env.encryptOk then
        { conn := none, err := some .encryptErr, events := evs }
      else
        { conn := some { hasRecycle := env.useCompression
                         recycleCount := 0, originalCloseCount := 0 }
          err := none, events := evs }

/-! ## SOCKS5 server (pkg/socks5/server.go)

The request parser, the CONNECT reply builders and the ASSOCIATE relay loop
are in the provided sources; the byte-level helpers readByte, readBytes,
readAddr and writeAddr live in another file of pkg/socks5 that is not
included, so those are modelled from the spec, section 4.5. -/

/-- Modelled from the spec: a SOCKS5 address as parsed by readAddr.  ATYP
0x01 carries four IPv4 bytes, 0x03 a fully qualified domain name with a
one-byte length, 0x04 sixteen IPv6 bytes; the port is big-endian two
bytes. -/
structure Address where
  atyp : Byte
  host : List Byte
  port : Nat
deriving DecidableEq

/-- Modelled from the spec: readAddr parses one address from the stream and
returns it with the unconsumed remainder; an unknown ATYP is an error. -/
def readAddr : List Byte → Option (Address × List Byte)
  | 1 :: a :: b :: c :: d :: p1 :: p2 :: rest =>
    some ({ atyp := 1, host := [a, b, c, d], port := p1 * 256 + p2 }, rest)
  | 3 :: n :: rest =>
    if n ≤ rest.length then
      match rest.drop n with
      | p1 :: p2 :: rest' =>
        some ({ atyp := 3, host := rest.take n, port := p1 * 256 + p2 }, rest')
      | _ => none
    else none
  | 4 :: rest =>
    if 16 ≤ rest.length then
      match rest.drop 16 with
      | p1 :: p2 :: rest' =>
        some ({ atyp := 4, host := rest.take 16, port := p1 * 256 + p2 }, rest')
      | _ => none
    else none
  | _ => none

/-- Action the ASSOCIATE relay loop performs for one datagram received from
the established source address. -/
inductive UdpAction where
  | drop : UdpAction
  | forward : List Byte → Address → UdpAction
deriving DecidableEq

/-- Relay state across datagrams: the established target, when any. -/
structure AssocState where
  targetAddr : Option Address
deriving DecidableEq

/-- Source-datagram branch of Server.handleAssociate (the wantSource ==
gotAddr case of the relay loop): datagrams shorter than three bytes are
skipped; the bytes after the three-byte header are parsed with readAddr (a
parse failure is logged and skipped); the first decoded destination becomes
the target; a decoded destination different from the target is skipped;
otherwise the remaining payload is forwarded to the target.  The FRAG octet
(third byte) is part of the three skipped bytes and is never inspected. -/
def handleSourceDatagram (st : AssocState) (datagram : List Byte) : AssocState × UdpAction :=
  if datagram.length < 3 then (st, .drop)
  else
    match readAddr (datagram.drop 3) with
    | none => (st, .drop)
    | some (addr, payload) =>
      match st.targetAddr with
      | none => ({ targetAddr := some addr }, .forward payload addr)
      | some tgt =>
        if addr = tgt then (st, .forward payload tgt) else (st, .drop)

/-- Modelled from the spec: writeAddr emits ATYP 0x01 followed by the four
IPv4 bytes and the big-endian two-byte port (both reply builders under
scrutiny bind an IPv4 literal). -/
def encodeIPv4 (ip : List Byte) (port : Nat) : List Byte :=
  1 :: ip ++ [port / 256 % 256, port % 256]

/-- sendReply of pkg/socks5/server.go on the success path: version 5, the
reply code, the reserved zero byte, then the bound address. -/
def sendReplyBytes (code : Byte) (ip : List Byte) (port : Nat) : List Byte :=
  [5, code, 0] ++ encodeIPv4 ip port

/-- Reply of Server.handleConnect after a successful dial: the local
address of the dialed conn is split into host and port, the host is
discarded, and the reply binds IP 0.0.0.0 with the local port. -/
def handleConnectReply (localIP : List Byte) (localPort : Nat) : List Byte :=
  sendReplyBytes 0 [0, 0, 0, 0] localPort

/-- Reply of SendSuccessReply: the local address of the dialed conn is
split into host and port, the host is discarded, and the reply binds IP
127.0.0.1 with the local port. -/
def sendSuccessReplyBytes (localIP : List Byte) (localPort : Nat) : List Byte :=
  sendReplyBytes 0 [127, 0, 0, 1] localPort

/-- Modelled from the spec: readByte reads a single byte. -/
def readByteM : List Byte → Option (Byte × List Byte)
  | [] => none
  | b :: rest => some (b, rest)

/-- Modelled from the spec: readBytes reads a one-byte count followed by
that many bytes (the method list of the greeting and the RFC 1929 username
and password fields). -/
def readBytesM : List Byte → Option (List Byte × List Byte)
  | [] => none
  | n :: rest =>
    if n ≤ rest.length then some (rest.take n, rest.drop n) else none

/-- Request of pkg/socks5: Version, Command, destination, Username and
Password; Command holds the zero value until assigned from the request
header. -/
structure S5Request where
  version : Byte
  command : Byte
  dest : Option Address
  username : List Byte
  password : List Byte
deriving DecidableEq

/-- Trace entry of one call to Authentication.Auth: the Command, Username
and Password arguments passed. -/
abbrev AuthCall := Byte × List Byte × List Byte

/-- Tail of Server.ParseRequest after negotiation and authentication: read
the three-byte request header, require version 5, assign the Command from
the header, then parse the destination address. -/
def finishRequest (req : S5Request) (s : List Byte) (calls : List AuthCall) :
    Option S5Request × List AuthCall :=
  match s with
  | v :: cmd :: _rsv :: s' =>
    if v ≠ 5 then (none, calls)
    else
      match readAddr s' with
      | none => (none, calls)
      | some (dest, _) => (some { req with command := cmd, dest := some dest }, calls)
  | _ => (none, calls)

/-- Server.ParseRequest: read the version byte (must be 5), build the
Request value (Command still the zero value), read the method list; when an
authenticator is configured and the user/password method is offered, read
the RFC 1929 exchange and call Auth with req.Command, req.Username and
req.Password; only afterwards read the request header and assign the
Command.  The second component collects every Auth call performed. -/
def parseRequest (authConfigured : Bool) (authFn : Byte → List Byte → List Byte → Bool)
    (input : List Byte) : Option S5Request × List AuthCall :=
  match readByteM input with
  | none => (none, [])
  | some (version, s1) =>
    if version ≠ 5 then (none, [])
    else
      let req0 : S5Request :=
        { version := 5, command := 0, dest := none, username := [], password := [] }
      match readBytesM s1 with
      | none => (none, [])
      | some (methods, s2) =>
        if authConfigured && methods.contains 2 then
          match readByteM s2 with
          | none => (none, [])
          | some (hdr, s3) =>
            if hdr ≠ 1 then (none, [])
            else
              match readBytesM s3 with
              | none => (none, [])
              | some (username, s4) =>
                match readBytesM s4 with
                | none => (none, [])
                | some (password, s5) =>
                  let req1 := { req0 with username := username, password := password }
                  let calls := [(req1.command, username, password)]
                  if !authFn req1.command username password then (none, calls)
                  else finishRequest req1 s5 calls
        else if !authConfigured && methods.contains 0 then
          finishRequest req0 s2 []
        else (none, [])

lemma readUntilSemi_spec (C : List Byte) :
    ∀ (rest acc : List Byte), 59 ∉ C →
      readUntilSemi (C ++ 59 :: rest) acc = some (acc ++ C ++ [59], rest) := by
  induction C with
  | nil =>
    intro rest acc _
    simp [readUntilSemi]
  | cons c cs ih =>
    intro rest acc h
    have hc : c ≠ 59 := by
      intro hc; exact h (by simp [hc])
    have hcs : 59 ∉ cs := fun hm => h (List.mem_cons_of_mem _ hm)
    simp only [List.cons_append, readUntilSemi, if_neg hc, List.append_eq]
    rw [ih rest (acc ++ [c]) hcs]
    simp

lemma bufConnRead_remaining (c : BufConn) (k : Nat) :
    (bufConnRead c k).1 ++ (bufConnRead c k).2.remaining = c.remaining := by
  cases c with
  | mk reader conn =>
    cases reader with
    | none =>
      simp [bufConnRead, connRead, BufConn.remaining]
    | some buffered =>
      by_cases h : buffered.length = 0
      · have hb : buffered = [] := List.length_eq_zero.mp h
        simp [bufConnRead, connRead, BufConn.remaining, hb]
      · simp only [bufConnRead, if_neg h, BufConn.remaining]
        rw [← List.append_assoc, List.take_append_drop]

lemma lookupChild_eq_none_of_not_mem (ch : List (Byte × Trie)) (k : Byte)
    (h : k ∉ ch.map Prod.fst) : lookupChild ch k = none := by
  induction ch with
  | nil => rfl
  | cons p rest ih =>
    obtain ⟨b, t⟩ := p
    simp only [List.map_cons, List.mem_cons] at h
    push_neg at h
    have hbk : b ≠ k := fun e => h.1 e.symm
    simp only [lookupChild, if_neg hbk]
    exact ih h.2

lemma matchWithReader_extend (input : List Byte) :
    ∀ (t : Trie) (consumed : List Byte) (tag : String) (cons rest0 ext : List Byte),
      t.matchWithReader consumed input = .hit tag cons rest0 →
      t.matchWithReader consumed (input ++ ext) = .hit tag cons (rest0 ++ ext) := by
  induction input with
  | nil =>
    intro t consumed tag cons rest0 ext h
    obtain ⟨tg, ch⟩ := t
    cases tg with
    | some s =>
      simp only [Trie.matchWithReader, MatchResult.hit.injEq] at h ⊢
      obtain ⟨h1, h2, h3⟩ := h
      exact ⟨h1, h2, by rw [← h3]⟩
    | none =>
      exact absurd h (by simp [Trie.matchWithReader])
  | cons b bs ih =>
    intro t consumed tag cons rest0 ext h
    obtain ⟨tg, ch⟩ := t
    cases tg with
    | some s =>
      simp only [Trie.matchWithReader, MatchResult.hit.injEq] at h ⊢
      obtain ⟨h1, h2, h3⟩ := h
      exact ⟨h1, h2, by rw [← h3]⟩
    | none =>
      simp only [Trie.matchWithReader, List.cons_append] at h ⊢
      cases hc : lookupChild ch b with
      | none =>
        rw [hc] at h
        exact absurd h (by simp)
      | some child =>
        rw [hc] at h
        exact ih child (consumed ++ [b]) tag cons rest0 ext h

lemma muxerTrieV2_hit_socks4_41 : muxerTrieV2.matchWithReader [] [4, 1] = .hit "socks4" [4, 1] [] := by
  decide

lemma muxerTrieV2_hit_socks4_42 : muxerTrieV2.matchWithReader [] [4, 2] = .hit "socks4" [4, 2] [] := by
  decide

lemma muxerTrieV1_rootKeys : muxerTrieV1.children.map Prod.fst = [71, 72, 80, 68, 67, 79, 84, 5] := by
  decide

lemma muxerTrieV2_rootKeys : muxerTrieV2.children.map Prod.fst = [71, 72, 80, 68, 67, 79, 84, 5, 4] := by
  decide

lemma muxerTrieV1_rootTag : muxerTrieV1.tagOf = none := by decide

lemma muxerTrieV2_rootTag : muxerTrieV2.tagOf = none := by decide

lemma muxerRun_miss_headByte (t : Trie) (b : Byte) (rest : List Byte)
    (htag : t.tagOf = none) (hb : b ∉ t.children.map Prod.fst) :
    muxerRun t (b :: rest) = none := by
  obtain ⟨tg, ch⟩ := t
  simp only [Trie.tagOf] at htag
  subst htag
  simp only [Trie.children] at hb
  have hlook := lookupChild_eq_none_of_not_mem ch b hb
  simp only [muxerRun, Trie.matchWithReader, hlook]

/-- C5 counterexample: the first muxer in stcp.go registers no socks4
patterns, so a connection starting 0x04 0x01 yields a miss there instead of
the tag "socks4". -/
theorem c5_counterexample_muxerV1_socks4 :
    muxerV1 [4, 1] = none ∧ muxerV1 [4, 1] ≠ some ("socks4", [4, 1]) := by
  decide

/-- C5 (amended): the second muxer classifies every connection whose first
two bytes are 0x04 0x01 or 0x04 0x02 with tag "socks4" and replays both
bytes; the first muxer, which registers no socks4 patterns, yields a miss on
those bytes and the session is dropped; and in the second muxer any
connection whose first byte matches no registered pattern yields a miss and
the session is dropped. -/
theorem c5_muxer_socks4 :
    (∀ rest : List Byte, muxerV2 (4 :: 1 :: rest) = some ("socks4", 4 :: 1 :: rest)) ∧
    (∀ rest : List Byte, muxerV2 (4 :: 2 :: rest) = some ("socks4", 4 :: 2 :: rest)) ∧
    (∀ rest : List Byte, muxerV1 (4 :: 1 :: rest) = none ∧ muxerV1 (4 :: 2 :: rest) = none) ∧
    (∀ (b : Byte) (rest : List Byte), b ∉ [71, 72, 80, 68, 67, 79, 84, 5, 4] →
      muxerV2 (b :: rest) = none) := by
  refine ⟨?_, ?_, ?_, ?_⟩
  · intro rest
    have h := matchWithReader_extend [4, 1] muxerTrieV2 [] "socks4" [4, 1] [] rest
      muxerTrieV2_hit_socks4_41
    simp only [List.nil_append] at h
    have h' : muxerTrieV2.matchWithReader [] (4 :: 1 :: rest) = .hit "socks4" [4, 1] rest := h
    simp [muxerV2, muxerRun, h']
  · intro rest
    have h := matchWithReader_extend [4, 2] muxerTrieV2 [] "socks4" [4, 2] [] rest
      muxerTrieV2_hit_socks4_42
    simp only [List.nil_append] at h
    have h' : muxerTrieV2.matchWithReader [] (4 :: 2 :: rest) = .hit "socks4" [4, 2] rest := h
    simp [muxerV2, muxerRun, h']
  · intro rest
    constructor
    · exact muxerRun_miss_headByte muxerTrieV1 4 (1 :: rest) muxerTrieV1_rootTag
        (by rw [muxerTrieV1_rootKeys]; decide)
    · exact muxerRun_miss_headByte muxerTrieV1 4 (2 :: rest) muxerTrieV1_rootTag
        (by rw [muxerTrieV1_rootKeys]; decide)
  · intro b rest hb
    exact muxerRun_miss_headByte muxerTrieV2 b rest muxerTrieV2_rootTag
      (by rw [muxerTrieV2_rootKeys]; exact hb)

/-- C5 witness: concrete instances of the amended statement, with the final
part applied at first byte 0. -/
theorem c5_muxer_socks4_witness :
    muxerV2 [4, 1, 9] = some ("socks4", [4, 1, 9]) ∧ muxerV2 [0, 9] = none :=
  ⟨c5_muxer_socks4.1 [9], c5_muxer_socks4.2.2.2 0 [9] (by decide)⟩

/-- C6: for a connection whose bytes up to and including the first semicolon
are "TARGET " ++ A ++ ";", ParseTargetHead consumes nothing past that first
semicolon and returns A with no error; when the accumulated buffer ending at
the first semicolon does not start with "TARGET ", it returns an error and
no target. -/
theorem c6_parseTargetHead (A rest : List Byte) (hA : 59 ∉ A) :
    ParseTargetHead (targetHeadBytes ++ A ++ 59 :: rest) = (some A, rest) ∧
    (∀ B rest', 59 ∉ B → targetHeadBytes.isPrefixOf (B ++ [59]) = false →
      ParseTargetHead (B ++ 59 :: rest') = (none, rest')) := by
  constructor
  · have h59 : 59 ∉ targetHeadBytes ++ A := by
      intro h
      rcases List.mem_append.mp h with h | h
      · revert h; decide
      · exact hA h
    have hrun :
        readUntilSemi ((targetHeadBytes ++ A) ++ 59 :: rest) [] =
          some ([] ++ (targetHeadBytes ++ A) ++ [59], rest) :=
      readUntilSemi_spec (targetHeadBytes ++ A) rest [] h59
    have hpre : targetHeadBytes.isPrefixOf (targetHeadBytes ++ A ++ [59]) = true := by
      rw [List.isPrefixOf_iff_prefix, List.append_assoc]
      exact List.prefix_append _ _
    simp only [ParseTargetHead, List.append_assoc] at hrun ⊢
    rw [hrun]
    simp only [List.nil_append, ← List.append_assoc] at hpre ⊢
    rw [hpre]
    simp only [if_true, List.append_assoc]
    have hdrop := List.drop_left targetHeadBytes (A ++ [59])
    have h7 : targetHeadBytes.length = 7 := rfl
    rw [h7] at hdrop
    rw [hdrop, List.dropLast_concat]
  · intro B rest' hB hfalse
    have hrun : readUntilSemi (B ++ 59 :: rest') [] = some ([] ++ B ++ [59], rest') :=
      readUntilSemi_spec B rest' [] hB
    simp only [List.nil_append] at hrun
    simp only [ParseTargetHead, hrun, hfalse]
    simp

/-- C6 witness: a concrete head "TARGET a;" followed by one pipelined byte,
and a concrete malformed head "X;". -/
theorem c6_parseTargetHead_witness :
    ParseTargetHead (targetHeadBytes ++ [97] ++ 59 :: [98]) = (some [97], [98]) ∧
    (∀ B rest', 59 ∉ B → targetHeadBytes.isPrefixOf (B ++ [59]) = false →
      ParseTargetHead (B ++ 59 :: rest') = (none, rest')) :=
  c6_parseTargetHead [97] [98] (by decide)

/-- C9: the bytes delivered by successive bufConn reads are exactly the
remaining buffered bytes followed by the bytes of the underlying connection,
none added, dropped or reordered (conservation of the remaining bytes under
any sequence of reads); and once the buffer is empty the reader reference is
dropped and the read goes directly to the underlying connection, as do all
reads after the reference is dropped. -/
theorem c9_bufConn_replay :
    (∀ (c : BufConn) (ks : List Nat),
        (bufConnReadAll c ks).1 ++ (bufConnReadAll c ks).2.remaining = c.remaining) ∧
    (∀ (conn : List Byte) (k : Nat),
        bufConnRead ⟨some [], conn⟩ k = (conn.take k, ⟨none, conn.drop k⟩)) ∧
    (∀ (conn : List Byte) (k : Nat),
        bufConnRead ⟨none, conn⟩ k = (conn.take k, ⟨none, conn.drop k⟩)) := by
  refine ⟨?_, ?_, ?_⟩
  · intro c ks
    induction ks generalizing c with
    | nil => simp [bufConnReadAll]
    | cons k ks ih =>
      simp only [bufConnReadAll, List.append_assoc]
      rw [ih (bufConnRead c k).2, bufConnRead_remaining]
  · intro conn k
    simp [bufConnRead, connRead]
  · intro conn k
    simp [bufConnRead, connRead]

/-- C1: evaluation at the failing input.  With ConnectServer and WriteMsg
successful and a response whose Error field is "x", the first DialContext
definition returns a nil error together with a nil conn (the err variable
returned in that branch still holds nil), while the second definition
returns the typed failure whose message contains the error string. -/
theorem c1_dialContextV1_remote_error :
    (dialContextV1 ⟨true, true, some "x", false, true, false⟩ 0).err = none ∧
    (dialContextV1 ⟨true, true, some "x", false, true, false⟩ 0).conn = none ∧
    (dialContextV2 ⟨true, true, some "x", false, true, false⟩ 0).err =
      some (.remoteErr "x") ∧
    GoErr.message (.remoteErr "x") = "error: " ++ "x" := by
  decide

/-- C2: evaluation at the failing input.  When WriteMsg fails, both
DialContext definitions surface the write error and return no conn, but
neither performs a Close on visitorConn before returning. -/
theorem c2_write_failure_leaves_conn_open :
    (dialContextV2 ⟨true, false, none, false, true, false⟩ 0).err = some .writeErr ∧
    (dialContextV2 ⟨true, false, none, false, true, false⟩ 0).conn = none ∧
    ConnEvent.close ∉ (dialContextV2 ⟨true, false, none, false, true, false⟩ 0).events ∧
    (dialContextV1 ⟨true, false, none, false, true, false⟩ 0).err = some .writeErr ∧
    ConnEvent.close ∉ (dialContextV1 ⟨true, false, none, false, true, false⟩ 0).events := by
  decide

lemma closeN_counts (n : Nat) : ∀ c : RWCConn,
    (RWCConn.closeN n c).originalCloseCount = c.originalCloseCount + n ∧
    (RWCConn.closeN n c).recycleCount =
      (if c.hasRecycle then c.recycleCount + n else c.recycleCount) := by
  induction n with
  | zero => intro c; simp [RWCConn.closeN]
  | succ m ih =>
    intro c
    have h := ih c.close
    simp only [RWCConn.closeN]
    constructor
    · rw [h.1]
      simp only [RWCConn.close]
      omega
    · rw [h.2]
      cases hr : c.hasRecycle with
      | true =>
        simp only [RWCConn.close, hr, if_pos]
        omega
      | false =>
        simp [RWCConn.close, hr]

lemma dialContextV2_conn_shape (env : DialEnv) (now : Nat) (c : RWCConn)
    (h : (dialContextV2 env now).conn = some c) :
    c = ⟨env.useCompression, 0, 0⟩ := by
  by_cases h1 : env.connectOk = false
  · simp [dialContextV2, h1] at h
  by_cases h2 : env.writeOk = false
  · simp [dialContextV2, h1, h2] at h
  cases hr : env.readResult with
  | none => simp [dialContextV2, h1, h2, hr] at h
  | some e =>
    by_cases he : e ≠ ""
    · simp [dialContextV2, h1, h2, hr, he] at h
    by_cases henc : (env.useEncryption && !env.encryptOk) = true
    · simp [dialContextV2, h1, h2, hr, he, henc] at h
    · simp [dialContextV2, h1, h2, hr, he, henc] at h
      exact h.symm

/-- C3 counterexample: for the stream DialContext returns with
UseCompression enabled, two calls to Close invoke the recycle function
twice, not exactly once. -/
theorem c3_counterexample_double_close :
    (dialContextV2 ⟨true, true, some "", false, true, true⟩ 0).conn =
      some ⟨true, 0, 0⟩ ∧
    (RWCConn.closeN 2 ⟨true, 0, 0⟩).recycleCount = 2 ∧
    ¬ (RWCConn.closeN 2 ⟨true, 0, 0⟩).recycleCount = 1 := by
  decide

/-- C3 (amended): every call to Close on the stream DialContext returns
with UseCompression enabled invokes the recycle function once and closes
the underlying control stream once — after n calls to Close the recycle
function has run n times and Original.Close n times, so the recycle hook
fires exactly once precisely when Close is called exactly once. -/
theorem c3_close_recycle_per_call (env : DialEnv) (now : Nat) (c : RWCConn)
    (hcomp : env.useCompression = true)
    (hconn : (dialContextV2 env now).conn = some c) :
    ∀ n : Nat, (RWCConn.closeN n c).recycleCount = n ∧
      (RWCConn.closeN n c).originalCloseCount = n := by
  intro n
  have hc := dialContextV2_conn_shape env now c hconn
  subst hc
  rw [hcomp]
  have h := closeN_counts n ⟨true, 0, 0⟩
  refine ⟨?_, ?_⟩
  · simpa using h.2
  · simpa using h.1

/-- C3 witness: a concrete compressed dial followed by a single Close. -/
theorem c3_close_recycle_per_call_witness :
    (RWCConn.closeN 1 ⟨true, 0, 0⟩).recycleCount = 1 ∧
    (RWCConn.closeN 1 ⟨true, 0, 0⟩).originalCloseCount = 1 :=
  c3_close_recycle_per_call ⟨true, true, some "", false, true, true⟩ 0
    ⟨true, 0, 0⟩ rfl (by decide) 1

/-- C7: ReadMsgIntoTimeout sets the read deadline to now plus the timeout
before reading and, exactly when the read succeeds, resets the read
deadline to the zero value; DialContext performs the response read through
it with a timeout of ten seconds, so on the success path the deadline is
cleared before the stream is returned. -/
theorem c7_read_deadline :
    (∀ (now timeout : Nat) (readOk : Bool),
        (readMsgIntoTimeout now timeout readOk).2 =
          [ConnEvent.setReadDeadline (some (now + timeout)), ConnEvent.readMsg readOk] ++
            (if readOk then [ConnEvent.setReadDeadline none] else [])) ∧
    (∀ (env : DialEnv) (now : Nat), env.connectOk = true → env.writeOk = true →
        (dialContextV2 env now).events =
          ConnEvent.writeMsg true :: (readMsgIntoTimeout now 10 env.readResult.isSome).2) := by
  constructor
  · intro now timeout readOk
    cases readOk <;> simp [readMsgIntoTimeout]
  · intro env now h1 h2
    have h1' : ¬ env.connectOk = false := by simp [h1]
    have h2' : ¬ env.writeOk = false := by simp [h2]
    cases hr : env.readResult with
    | none => simp [dialContextV2, h1', h2', hr]
    | some e =>
      by_cases he : e ≠ ""
      · simp [dialContextV2, h1', h2', hr, he]
      · by_cases henc : (env.useEncryption && !env.encryptOk) = true
        · simp [dialContextV2, h1', h2', hr, he, henc]
        · simp [dialContextV2, h1', h2', hr, he, henc]

/-- C7 witness: a concrete successful handshake at now = 5. -/
theorem c7_read_deadline_witness :
    (dialContextV2 ⟨true, true, some "", false, true, false⟩ 5).events =
      ConnEvent.writeMsg true ::
        (readMsgIntoTimeout 5 10 (Option.isSome (some ""))).2 :=
  c7_read_deadline.2 ⟨true, true, some "", false, true, false⟩ 5 rfl rfl

/-- C4 counterexample: with source and target established at 8.8.8.8:53, a
datagram from the source whose FRAG octet is 1 and whose header addresses
the target is forwarded, not dropped. -/
theorem c4_counterexample_fragment_forwarded :
    handleSourceDatagram ⟨some ⟨1, [8, 8, 8, 8], 53⟩⟩
        [0, 0, 1, 1, 8, 8, 8, 8, 0, 53, 222, 173] =
      (⟨some ⟨1, [8, 8, 8, 8], 53⟩⟩, .forward [222, 173] ⟨1, [8, 8, 8, 8], 53⟩) ∧
    UdpAction.forward [222, 173] ⟨1, [8, 8, 8, 8], 53⟩ ≠ .drop := by
  decide

/-- C4 (amended): the relay loop never inspects the FRAG octet: for every
relay state and datagram, replacing the third byte by any other value
leaves the step of the loop unchanged, so a non-zero FRAG datagram is
forwarded or dropped exactly as the corresponding zero-FRAG datagram. -/
theorem c4_frag_octet_ignored (st : AssocState) (r0 r1 f g : Byte) (rest : List Byte) :
    handleSourceDatagram st (r0 :: r1 :: f :: rest) =
      handleSourceDatagram st (r0 :: r1 :: g :: rest) := by
  have hlen : ¬ (r0 :: r1 :: f :: rest).length < 3 := by simp
  have hlen' : ¬ (r0 :: r1 :: g :: rest).length < 3 := by simp
  simp only [handleSourceDatagram, if_neg hlen, if_neg hlen']
  rfl

/-- C8 counterexample: for a dialed socket whose local address is
10.0.0.2:4321, SendSuccessReply answers with BND.ADDR 127.0.0.1, which is
neither the address actually bound nor 0.0.0.0. -/
theorem c8_counterexample_sendSuccessReply :
    sendSuccessReplyBytes [10, 0, 0, 2] 4321 = [5, 0, 0, 1, 127, 0, 0, 1, 16, 225] ∧
    ¬ ((sendSuccessReplyBytes [10, 0, 0, 2] 4321).drop 4 |>.take 4) = [10, 0, 0, 2] ∧
    ¬ ((sendSuccessReplyBytes [10, 0, 0, 2] 4321).drop 4 |>.take 4) = [0, 0, 0, 0] := by
  decide

/-- C8 (amended): on a successful SOCKS5 CONNECT dial the reply is version
5, code SUCCEEDED, reserved 0, ATYP IPv4, with BND.PORT the local port of
the dialed connection and BND.ADDR a fixed placeholder rather than the
bound address: 0.0.0.0 in handleConnect and 127.0.0.1 in SendSuccessReply. -/
theorem c8_connect_reply_bytes (ip : List Byte) (port : Nat) :
    handleConnectReply ip port =
      [5, 0, 0, 1, 0, 0, 0, 0, port / 256 % 256, port % 256] ∧
    sendSuccessReplyBytes ip port =
      [5, 0, 0, 1, 127, 0, 0, 1, port / 256 % 256, port % 256] := by
  constructor <;> rfl

/-- C10: whenever ParseRequest calls the configured Authentication
callback, the Command argument passed is the zero value, because the
request command byte is only read and assigned after authentication. -/
theorem c10_auth_sees_zero_command (ac : Bool)
    (fn : Byte → List Byte → List Byte → Bool) (input : List Byte)
    (call : AuthCall) (hmem : call ∈ (parseRequest ac fn input).2) :
    call.1 = 0 := by
  have hfin : ∀ (req : S5Request) (s : List Byte) (calls : List AuthCall),
      (finishRequest req s calls).2 = calls := by
    intro req s calls
    unfold finishRequest
    split
    · split
      · rfl
      · split <;> rfl
    · rfl
  unfold parseRequest at hmem
  repeat' split at hmem
  all_goals try simp only [] at hmem
  all_goals try split at hmem
  all_goals try rw [hfin] at hmem
  all_goals try simp only [List.mem_singleton, List.not_mem_nil] at hmem
  all_goals first
    | exact absurd hmem (fun h => h)
    | rw [hmem]

/-- C10 witness: a concrete authenticated session (greeting offering
user/password, RFC 1929 exchange for user "a" password "b", then a CONNECT
to 9.9.9.9:80); the one Auth call recorded carries Command 0. -/
theorem c10_auth_sees_zero_command_witness :
    ((0, [97], [98]) : AuthCall) ∈
      (parseRequest true (fun _ _ _ => true)
        [5, 1, 2, 1, 1, 97, 1, 98, 5, 1, 0, 1, 9, 9, 9, 9, 0, 80]).2 ∧
    ((0, [97], [98]) : AuthCall).1 = 0 :=
  ⟨by decide,
    c10_auth_sees_zero_command true (fun _ _ _ => true)
      [5, 1, 2, 1, 1, 97, 1, 98, 5, 1, 0, 1, 9, 9, 9, 9, 0, 80]
      (0, [97], [98]) (by decide)⟩

end Frp
